import Mathlib

/-!
Verification of the web-research-agent worker (`src/agent.py`) against its
natural-language specification.  The Python source is shallowly embedded:
JSON values become an inductive `JValue`, fallible statements become
`Except`-valued functions (an uncaught Python exception is an `Except.error`),
and the external collaborators (the search provider, the language model,
the streamed agent state) are parameters of the embedded functions.
-/

/-- A JSON value as produced by `json.loads` / consumed by `json.dumps`.
Numbers are modelled as integers (no claim involves floats). -/
inductive JValue where
  | null
  | bool (b : Bool)
  | num (n : Int)
  | str (s : String)
  | arr (elems : List JValue)
  | obj (fields : List (String × JValue))

/-- Python truthiness (`if x:`) of a JSON value. -/
def jTruthy : JValue → Bool
  | .null => false
  | .bool b => b
  | .num n => n != 0
  | .str s => s != ""
  | .arr xs => !xs.isEmpty
  | .obj fs => !fs.isEmpty

/-- Python `x == "lit"` where `x` is an arbitrary JSON value: only equal when
`x` is that very string. -/
def isStrEq (v : JValue) (s : String) : Bool :=
  match v with
  | .str t => t == s
  | _ => false

/-- Python `str(x)` as used inside f-strings.  Atoms are rendered as Python
renders them; containers are rendered structurally (the provider fields this
is applied to are strings, and no claim depends on container rendering). -/
def pyStr : JValue → String
  | .null => "None"
  | .bool b => if b then "True" else "False"
  | .num n => toString n
  | .str s => s
  | .arr _ => "<list>"
  | .obj _ => "<dict>"

/-- An uncaught Python exception raised by subscripting a parsed message. -/
inductive Fault where
  | keyError (key : String)
  | typeError
deriving DecidableEq

/-- Python `d[k]`: `KeyError` when the key is absent, `TypeError` when the
value is not a dict. -/
def getItem (v : JValue) (k : String) : Except Fault JValue :=
  match v with
  | .obj fs =>
    match fs.lookup k with
    | some x => .ok x
    | none => .error (.keyError k)
  | _ => .error .typeError

/-- Python `d.get(k, default)` on a dict; `AttributeError` (carried as the
error string) when the receiver is not a dict. -/
def dictGet (v : JValue) (k : String) (d : JValue) : Except String JValue :=
  match v with
  | .obj fs => .ok ((fs.lookup k).getD d)
  | _ => .error "AttributeError: object has no attribute get"

/-- An outbound protocol event written by `send` (one JSON line on stdout). -/
inductive Event where
  | ready
  | activity (tool : String) (description : String) (mid : JValue)
  | response (content : JValue) (mid : JValue) (done : Bool)
  | error (err : String) (mid : JValue)

/-- A terminal event: a `response` whose `done` field is true. -/
def isTerminal : Event → Bool
  | .response _ _ done => done
  | _ => false

section WebSearch

/-- What `resp.json()` yields: either a parse failure or a JSON value. -/
inductive BodyOutcome where
  | badJson (msg : String)
  | json (v : JValue)

/-- Behaviour of the one `httpx.get` call: either the transport raises, or a
response with a status code and a body comes back. -/
inductive HttpOutcome where
  | transportError (msg : String)
  | response (status : Nat) (body : BodyOutcome)

/-- Python `for item in x`: lists iterate their elements, strings their
characters, dicts their keys; other values raise `TypeError`. -/
def toIterable : JValue → Except String (List JValue)
  | .arr xs => .ok xs
  | .str s => .ok (s.data.map (fun c => .str (String.singleton c)))
  | .obj fs => .ok (fs.map (fun p => .str p.1))
  | _ => .error "TypeError: object is not iterable"

/-- One iteration of the result-formatting loop in `web_search`: the
three-line `Title:`/`URL:`/`Description:` block, with missing fields
defaulting to the empty string; a non-dict item raises `AttributeError`. -/
def formatItem (item : JValue) : Except String String :=
  match item with
  | .obj fs =>
    .ok ("Title: " ++ pyStr ((fs.lookup "title").getD (.str "")) ++ "\n"
      ++ "URL: " ++ pyStr ((fs.lookup "url").getD (.str "")) ++ "\n"
      ++ "Description: " ++ pyStr ((fs.lookup "description").getD (.str "")))
  | _ => .error "AttributeError: object has no attribute get"

/-- The chain `data.get("web", {}).get("results", [])` followed by the iteration,
as in `web_search`. -/
def extractItems (data : JValue) : Except String (List JValue) := do
  let web ← dictGet data "web" (.obj [])
  let resultsVal ← dictGet web "results" (.arr [])
  toIterable resultsVal

/-- The body of the `try:` block of `web_search`, for a given behaviour of
the provider call.  `raise_for_status` raises on any non-2xx status. -/
def webSearchRun (o : HttpOutcome) : Except String String := do
  match o with
  | .transportError m => .error m
  | .response status body =>
    if status < 200 || 300 ≤ status then
      .error ("HTTP status error " ++ toString status)
    else
      match body with
      | .badJson m => .error m
      | .json data => do
        let items ← extractItems data
        let results ← items.mapM formatItem
        if results.isEmpty then
          .ok "No results found. Try a different search query."
        else
          .ok (String.intercalate "\n\n---\n\n" results)

/-- The function `web_search`: the `try/except` wrapper turning every exception of the
body into the `"Search error: ..."` string.  Total — never raises. -/
def web_search (o : HttpOutcome) : String :=
  match webSearchRun o with
  | .ok s => s
  | .error e => "Search error: " ++ e

end WebSearch

section Streaming

/-- A tool-call request dict as read by `research`: `tc.get("id")`,
`tc.get("name", ...)`, `tc.get("args", {})`.  Ids and names are strings when
present; `args` is the argument dict when present. -/
structure ToolCall where
  id : Option String
  name : Option String
  args : Option (List (String × JValue))

/-- Python `tc.get("id") or tc.get("name", "")`: the id when present and non-empty
(Python truthiness), else the name, else the empty string. -/
def tcId (tc : ToolCall) : String :=
  match tc.id with
  | some s => if s != "" then s else tc.name.getD ""
  | none => tc.name.getD ""

/-- The `content` attribute of a streamed message: a plain string, a list of
content blocks (arbitrary JSON values), or anything else. -/
inductive MsgContent where
  | str (s : String)
  | blocks (bs : List JValue)
  | other

/-- A message object in a streamed snapshot: `getattr(msg, "type", None)`,
`getattr(msg, "content", "")`, and the `tool_calls` list (absent or falsy
`tool_calls` is the empty list). -/
structure Msg where
  type : Option String
  content : MsgContent
  tool_calls : List ToolCall

/-- The activity event sent for one tool call:
`desc = f"{tool_name}({q})" if q else tool_name`. -/
def tcActivity (mid : JValue) (tc : ToolCall) : Event :=
  let toolName := tc.name.getD "unknown"
  let q := ((tc.args.getD []).lookup "query").getD (.str "")
  let desc := if jTruthy q then toolName ++ "(" ++ pyStr q ++ ")" else toolName
  .activity toolName desc mid

/-- The inner loop over `msg.tool_calls`: skip ids already in
`emitted_tool_calls`, otherwise record the id and send the activity event.
Returns the updated seen set and the emitted events annotated with the
dedup identifier used for each. -/
def procToolCalls (mid : JValue) : List String → List ToolCall →
    List String × List (String × Event)
  | seen, [] => (seen, [])
  | seen, tc :: rest =>
    let i := tcId tc
    if i ∈ seen then procToolCalls mid seen rest
    else
      let p := procToolCalls mid (i :: seen) rest
      (p.1, (i, tcActivity mid tc) :: p.2)

/-- The loop over `event["messages"]` that announces tool calls of `ai`
messages carrying a non-empty `tool_calls` list. -/
def procMsgs (mid : JValue) : List String → List Msg →
    List String × List (String × Event)
  | seen, [] => (seen, [])
  | seen, m :: rest =>
    if m.type == some "ai" && !m.tool_calls.isEmpty then
      let p := procToolCalls mid seen m.tool_calls
      let p2 := procMsgs mid p.1 rest
      (p2.1, p.2 ++ p2.2)
    else procMsgs mid seen rest

/-- The inner loop over the blocks of a list-valued `content`: the `text`
value of the first dict block whose `type` equals `"text"` (defaulting to
the empty string), if any. -/
def scanBlocks : List JValue → Option JValue
  | [] => none
  | .obj fs :: rest =>
    if isStrEq ((fs.lookup "type").getD .null) "text" then
      some ((fs.lookup "text").getD (.str ""))
    else scanBlocks rest
  | _ :: rest => scanBlocks rest

/-- The `final_response` scan over `reversed(event["messages"])` (the input
list here is already reversed).  `acc` is the current `final_response`:
a string content with non-blank text ends the scan; a list content
overwrites `acc` with the value of the first text block and ends the scan when
the result is truthy. -/
def scanMsgs : JValue → List Msg → JValue
  | acc, [] => acc
  | acc, m :: rest =>
    if m.type == some "ai" then
      match m.content with
      | .str s => if s.trim != "" then .str s else scanMsgs acc rest
      | .blocks bs =>
        let acc2 := (scanBlocks bs).getD acc
        if jTruthy acc2 then acc2 else scanMsgs acc2 rest
      | .other => scanMsgs acc rest
    else scanMsgs acc rest

/-- Processing of one streamed event: events that are not dicts carrying a
`messages` key are skipped (`none`); otherwise the tool-call announcement
pass runs, then the `final_response` scan. -/
def procEvent (mid : JValue) (st : List String × JValue) (ev : Option (List Msg)) :
    (List String × JValue) × List (String × Event) :=
  match ev with
  | none => (st, [])
  | some msgs =>
    let p := procMsgs mid st.1 msgs
    ((p.1, scanMsgs st.2 msgs.reverse), p.2)

/-- The fold of `procEvent` over the streamed snapshots. -/
def researchEvents (mid : JValue) : (List String × JValue) →
    List (Option (List Msg)) → (List String × JValue) × List (String × Event)
  | st, [] => (st, [])
  | st, ev :: rest =>
    let p := procEvent mid st ev
    let p2 := researchEvents mid p.1 rest
    (p2.1, p.2 ++ p2.2)

/-- The function `research(query, message_id)` with the stream of snapshots produced by
the external agent as a parameter: the id-annotated activity events sent,
and the returned `final_response` (initially the empty string). -/
def research (mid : JValue) (stream : List (Option (List Msg))) :
    List (String × Event) × JValue :=
  let p := researchEvents mid ([], .str "") stream
  (p.2, p.1.2)

end Streaming

section MainLoop

/-- One line read from stdin: blank after stripping, undecodable JSON, or a
decoded JSON value. -/
inductive Line where
  | blank
  | badJson
  | json (v : JValue)

/-- The behaviour of one `research(query, mid)` call as observed by `main`:
the (tool, description) activity notifications it sent before finishing, and
either the returned value or the exception it raised. -/
abbrev ResearchBehavior := List (String × String) × Except String JValue

/-- The body of the per-line processing of `main`.  An `Except.error` is an
uncaught Python exception escaping `main`; `Bool` is true when the line was
a `shutdown` command (the loop breaks). -/
def processLine (rb : JValue → JValue → ResearchBehavior) (l : Line) :
    Except Fault (List Event × Bool) :=
  match l with
  | .blank => .ok ([], false)
  | .badJson => .ok ([], false)
  | .json v => do
    let t ← getItem v "type"
    if isStrEq t "shutdown" then
      .ok ([], true)
    else if isStrEq t "message" then do
      let mid ← getItem v "message_id"
      let content ← getItem v "content"
      match rb content mid with
      | (acts, .ok result) =>
        .ok ((acts.map fun a => Event.activity a.1 a.2 mid)
          ++ [.response result mid true], false)
      | (acts, .error e) =>
        .ok ((acts.map fun a => Event.activity a.1 a.2 mid)
          ++ [.error e mid, .response (.str ("Something went wrong: " ++ e)) mid true],
          false)
    else
      .ok ([], false)

/-- How the stdin loop of `main` ended. -/
inductive Termination where
  | eof
  | stopped
  | crashed (f : Fault)

/-- The `for line in sys.stdin` loop: events emitted so far are kept when a
later line crashes the process (they were already flushed). -/
def serve (rb : JValue → JValue → ResearchBehavior) : List Line →
    List Event × Termination
  | [] => ([], .eof)
  | l :: ls =>
    match processLine rb l with
    | .error f => ([], .crashed f)
    | .ok (evs, true) => (evs, .stopped)
    | .ok (evs, false) =>
      let p := serve rb ls
      (evs ++ p.1, p.2)

/-- The function `main`: the initial `ready` event followed by the serving loop. -/
def runMain (rb : JValue → JValue → ResearchBehavior) (lines : List Line) :
    List Event × Termination :=
  let p := serve rb lines
  (Event.ready :: p.1, p.2)

end MainLoop

section SpecLoop

/-- Modelled from the spec: a `ToolCallRequest` — identifier, capability
name, and the single `query` argument (§3).  The non-streaming ResearchLoop
this section models (the 8-round cap and the thinking/analyzing activity
notifications of §4.2/§4.4) is described by the spec but is not among the
provided source files, which contain only the streaming variant. -/
structure ToolRequest where
  id : String
  name : String
  query : String

/-- Modelled from the spec: one model turn — either terminal text, or a
list of requested tool invocations accompanied by (possibly empty) text. -/
structure ModelTurn where
  text : String
  toolCalls : List ToolRequest

/-- Modelled from the spec: a `ConversationTurn` of the ConversationState
(§3). -/
inductive ConvTurn where
  | system (directive : String)
  | user (query : String)
  | assistant (turn : ModelTurn)
  | toolResult (id : String) (output : String)

/-- Modelled from the spec: the activity notification for one requested
tool call, describing the capability and its query argument (§4.2). -/
def reqActivity (mid : JValue) (r : ToolRequest) : Event :=
  .activity r.name (r.name ++ "(" ++ r.query ++ ")") mid

/-- Modelled from the spec: the "analyzing results" notification emitted
after all calls of a tool round (§4.2, §8 scenario). -/
def analyzingEvent (mid : JValue) : Event :=
  .activity "thinking" "analyzing results" mid

/-- Modelled from the spec: the "thinking about your question" notification
emitted when a query starts (§4.4, §8 scenario). -/
def thinkingEvent (mid : JValue) : Event :=
  .activity "thinking" "thinking about your question" mid

/-- Modelled from the spec: the `AWAITING_MODEL`/`TOOL_ROUND` recursion of
the ResearchLoop (§4.2).  `turns k` is the output of the opaque completion service at its k-th invocation of this run; `exec` runs a capability.
Arguments: remaining fuel, round index, ConversationState, the text of the
previous model turn.  Returns the emitted activity events, the final
answer, and the number of model invocations performed. -/
def runLoopGo (turns : Nat → ModelTurn) (exec : ToolRequest → String)
    (mid : JValue) : Nat → Nat → List ConvTurn → String →
    List Event × String × Nat
  | 0, _, _, last => ([], last, 0)
  | fuel + 1, k, conv, _ =>
    let t := turns k
    if t.toolCalls.isEmpty then ([], t.text, 1)
    else
      let conv2 := conv ++ [ConvTurn.assistant t]
        ++ t.toolCalls.map fun r => ConvTurn.toolResult r.id (exec r)
      let p := runLoopGo turns exec mid fuel (k + 1) conv2 t.text
      (t.toolCalls.map (reqActivity mid) ++ analyzingEvent mid :: p.1,
        p.2.1, p.2.2 + 1)

/-- Modelled from the spec: the ResearchLoop for one query — the initial
thinking notification, then at most 8 model rounds starting from the
ConversationState `[system directive, user query]` (§4.2). -/
def researchLoop (turns : Nat → ModelTurn) (exec : ToolRequest → String)
    (mid : JValue) (query : String) : List Event × String × Nat :=
  let p := runLoopGo turns exec mid 8 0
    [ConvTurn.system "system directive", ConvTurn.user query] ""
  (thinkingEvent mid :: p.1, p.2)

/-- Modelled from the spec: the full event trace of one query — the activity events of the loop followed by the single terminal response (§4.4). -/
def runQuery (turns : Nat → ModelTurn) (exec : ToolRequest → String)
    (mid : JValue) (query : String) : List Event :=
  let p := researchLoop turns exec mid query
  p.1 ++ [.response (.str p.2.1) mid true]

/-- The declarative per-round trace the spec prescribes (§4.2): each tool
round contributes its activity notifications, in request order, followed by
one "analyzing results" notification, until a round without tool requests
or until the fuel (the round cap) is exhausted. -/
def specTrace (turns : Nat → ModelTurn) (mid : JValue) : Nat → Nat → List Event
  | 0, _ => []
  | fuel + 1, k =>
    let t := turns k
    if t.toolCalls.isEmpty then []
    else t.toolCalls.map (reqActivity mid)
      ++ analyzingEvent mid :: specTrace turns mid fuel (k + 1)

end SpecLoop

section SpecSideC3

/-- How the spec reads a content block "carrying textual content": a dict
block whose `type` is `"text"`, contributing its `text` value as a string. -/
def blockTextStr (b : JValue) : Option String :=
  match b with
  | .obj fs =>
    if isStrEq ((fs.lookup "type").getD .null) "text" then
      some (pyStr ((fs.lookup "text").getD (.str "")))
    else none
  | _ => none

/-- Claim C3 as stated: the text of an assistant turn, where a block list
contributes the newline-join of the texts of all its text blocks; `none`
when the turn is not an assistant turn with non-empty text content. -/
def turnTextJoined (m : Msg) : Option String :=
  if m.type == some "ai" then
    match m.content with
    | .str s => if s.trim != "" then some s else none
    | .blocks bs =>
      let t := String.intercalate "\n" (bs.filterMap blockTextStr)
      if t != "" then some t else none
    | .other => none
  else none

/-- Claim C3 as stated: scan the history most-recent-first (the input list
here is already reversed) for the first turn with non-empty text content
under the newline-join reading. -/
def specExtractJoined : List Msg → Option String
  | [] => none
  | m :: rest =>
    match turnTextJoined m with
    | some t => some t
    | none => specExtractJoined rest

/-- Amended claim C3: the value a turn yields under the rule of the source — a
string content with non-blank text yields itself; a block-list content
yields the `text` value of its first `"text"`-typed block when that value
is truthy; everything else yields nothing. -/
def turnYield (m : Msg) : Option JValue :=
  if m.type == some "ai" then
    match m.content with
    | .str s => if s.trim != "" then some (.str s) else none
    | .blocks bs =>
      match scanBlocks bs with
      | some t => if jTruthy t then some t else none
      | none => none
    | .other => none
  else none

/-- Amended claim C3: the first yield of the most-recent-first scan (the
input list here is already reversed). -/
def lastYield : List Msg → Option JValue
  | [] => none
  | m :: rest =>
    match turnYield m with
    | some v => some v
    | none => lastYield rest

end SpecSideC3

section InvariantsAndExamples

/-- The dedup invariant of one pass of the streaming loop: starting from the
seen set `seen` and ending at `seen2`, the pass emitted the id-annotated
events `ps` — their ids are pairwise distinct, none was already seen, and
`seen2` is exactly `seen` plus the newly emitted ids. -/
def SeenInv (seen seen2 : List String) (ps : List (String × Event)) : Prop :=
  (ps.map Prod.fst).Nodup ∧
  (∀ i ∈ ps.map Prod.fst, i ∉ seen) ∧
  (∀ x, x ∈ seen2 ↔ x ∈ seen ∨ x ∈ ps.map Prod.fst)

/-- A concrete research behaviour used to instantiate theorems: one activity
notification, then a normal return. -/
def rbEx : JValue → JValue → ResearchBehavior :=
  fun _ _ => ([("web_search", "web_search(x)")], .ok (.str "answer"))

/-- A concrete research behaviour that raises. -/
def rbErr : JValue → JValue → ResearchBehavior :=
  fun _ _ => ([], .error "boom")

/-- A concrete streamed `ai` message whose content is two text blocks. -/
def exMsgC3 : Msg :=
  ⟨some "ai",
   .blocks [.obj [("type", .str "text"), ("text", .str "A")],
            .obj [("type", .str "text"), ("text", .str "B")]], []⟩

/-- A concrete model-turn sequence: the first turn requests two searches,
the second answers. -/
def twoSearchTurns : Nat → ModelTurn
  | 0 => ⟨"", [⟨"call1", "web_search", "query A"⟩, ⟨"call2", "web_search", "query B"⟩]⟩
  | _ => ⟨"final answer", []⟩

/-- A concrete model-turn sequence that requests a tool on every round. -/
def allToolTurns : Nat → ModelTurn :=
  fun k => ⟨"draft " ++ toString k, [⟨"id" ++ toString k, "web_search", "q"⟩]⟩

/-- A concrete tool executor. -/
def execEx : ToolRequest → String := fun _ => "results"

end InvariantsAndExamples

/-- C5: `web_search` never raises to its caller — it is a total function into
strings — and whenever the body of its `try` block raises (transport
failure, non-2xx HTTP status, malformed provider payload, or any other
fault), the returned tool-output string is exactly `"Search error: "`
followed by the cause. -/
theorem c5_search_error_string (o : HttpOutcome) (e : String)
    (h : webSearchRun o = .error e) :
    web_search o = "Search error: " ++ e := by
  simp [web_search, h]

/-- Witness for C5 at a concrete transport failure. -/
theorem c5_search_error_string_witness :
    webSearchRun (.transportError "ConnectTimeout") = .error "ConnectTimeout" ∧
    web_search (.transportError "ConnectTimeout") = "Search error: ConnectTimeout" :=
  ⟨rfl, c5_search_error_string (.transportError "ConnectTimeout") "ConnectTimeout" rfl⟩

/-- C6: when the provider responds with a 2xx status and a payload from
which the result list comes out empty, `web_search` returns the fixed
"no results" sentinel — a non-empty string that is not an error string. -/
theorem c6_zero_results_sentinel (status : Nat) (data : JValue)
    (h1 : 200 ≤ status) (h2 : status < 300)
    (h3 : extractItems data = .ok []) :
    web_search (.response status (.json data))
        = "No results found. Try a different search query." ∧
    web_search (.response status (.json data)) ≠ "" ∧
    ∀ cause, web_search (.response status (.json data)) ≠ "Search error: " ++ cause := by
  have hcond : (decide (status < 200) || decide (300 ≤ status)) = false := by
    simp only [Bool.or_eq_false_iff, decide_eq_false_iff_not]
    omega
  have hrun : webSearchRun (.response status (.json data))
      = .ok "No results found. Try a different search query." := by
    simp only [webSearchRun, hcond, Bool.false_eq_true, if_false, h3]
    rfl
  refine ⟨by simp [web_search, hrun], ?_, ?_⟩
  · simp [web_search, hrun]
  · intro cause h
    simp only [web_search, hrun] at h
    have h2 := congrArg String.data h
    simp [String.data_append] at h2

/-- Witness for C6: a 200 response whose payload has no `web.results`. -/
theorem c6_zero_results_sentinel_witness :
    extractItems (.obj []) = .ok [] ∧
    web_search (.response 200 (.json (.obj [])))
      = "No results found. Try a different search query." :=
  ⟨rfl, (c6_zero_results_sentinel 200 (.obj []) (by decide) (by decide) rfl).1⟩

/-- Counterexample to C8 as stated: the line `{}` is well-formed JSON that
fails to parse as the wire message format (it has no `type` field), yet the
handler does not silently ignore it — `msg["type"]` raises an uncaught
`KeyError` and the process stops: a subsequent well-formed `message` line is
never served and no event beyond `ready` is emitted. -/
theorem c8_counterexample :
    processLine rbEx (.json (.obj [])) = .error (.keyError "type") ∧
    runMain rbEx [Line.json (.obj []),
        Line.json (.obj [("type", .str "message"), ("message_id", .str "1"),
          ("content", .str "q")])]
      = ([Event.ready], .crashed (.keyError "type")) :=
  ⟨rfl, rfl⟩

/-- C8 amended: for every input line that is blank or fails to parse as
JSON, the handler emits no outbound event, does not terminate, and
continues with the subsequent lines; a line that parses as JSON but is not
an object carrying a `type` field instead raises an uncaught fault. -/
theorem c8_blank_or_bad_json_ignored (rb : JValue → JValue → ResearchBehavior)
    (l : Line) (ls : List Line) (h : l = Line.blank ∨ l = Line.badJson) :
    processLine rb l = .ok ([], false) ∧ serve rb (l :: ls) = serve rb ls := by
  rcases h with h | h <;> subst h <;>
    exact ⟨rfl, by simp [serve, processLine]⟩

/-- Witness for C8 (amended) at a blank line. -/
theorem c8_blank_or_bad_json_ignored_witness :
    processLine rbEx Line.blank = .ok ([], false) ∧
    serve rbEx [Line.blank] = serve rbEx [] :=
  c8_blank_or_bad_json_ignored rbEx Line.blank [] (Or.inl rfl)

/-- C9: evaluation at the failing input.  A `message` that lacks
`message_id` makes `main` raise an uncaught `KeyError` (the field is read
outside the `try` block), so the process stops serving: the following
`shutdown` line is never read and only the initial `ready` event was
emitted — contradicting the claim that the handler keeps serving and stops
only on an explicit shutdown. -/
theorem c9_missing_field_kills_process :
    runMain rbEx [Line.json (.obj [("type", .str "message"), ("content", .str "hi")]),
        Line.json (.obj [("type", .str "shutdown")])]
      = ([Event.ready], .crashed (.keyError "message_id")) ∧
    runMain rbEx [Line.json (.obj [("type", .str "message"), ("message_id", .str "1")]),
        Line.json (.obj [("type", .str "shutdown")])]
      = ([Event.ready], .crashed (.keyError "content")) :=
  ⟨rfl, rfl⟩

/-- C10: a well-formed JSON object line whose `type` field holds any value
other than the strings `"message"` and `"shutdown"` produces no outbound
event, is processed identically under every research behaviour (the
research loop is not invoked), and the handler continues with the
subsequent lines. -/
theorem c10_unknown_type_ignored (rb rb2 : JValue → JValue → ResearchBehavior)
    (v t : JValue) (ls : List Line)
    (ht : getItem v "type" = .ok t)
    (h1 : isStrEq t "message" = false)
    (h2 : isStrEq t "shutdown" = false) :
    processLine rb (.json v) = .ok ([], false) ∧
    serve rb (.json v :: ls) = serve rb ls ∧
    processLine rb2 (.json v) = processLine rb (.json v) := by
  have hp : ∀ rb3 : JValue → JValue → ResearchBehavior,
      processLine rb3 (.json v) = .ok ([], false) := by
    intro rb3
    simp [processLine, ht, h1, h2, bind, Except.bind]
  refine ⟨hp rb, ?_, by rw [hp rb2, hp rb]⟩
  simp [serve, hp rb]

/-- Witness for C10 at `{"type": "ping"}`. -/
theorem c10_unknown_type_ignored_witness :
    processLine rbEx (.json (.obj [("type", .str "ping")])) = .ok ([], false) ∧
    serve rbEx [Line.json (.obj [("type", .str "ping")])] = serve rbEx [] ∧
    processLine rbErr (.json (.obj [("type", .str "ping")]))
      = processLine rbEx (.json (.obj [("type", .str "ping")])) :=
  c10_unknown_type_ignored rbEx rbErr (.obj [("type", .str "ping")]) (.str "ping")
    [] rfl rfl rfl

/-- C1: for every well-formed inbound `message` line — a JSON object whose
`type` is `"message"` and which carries `message_id` and `content` fields —
and every behaviour of `research` (normal return or raise), the handler
emits an event list that ends in a terminal `response` carrying the inbound
`message_id` and `done = true`, every earlier event is non-terminal, and
the count of terminal events is exactly one; the process continues serving
(no shutdown, no crash). -/
theorem c1_exactly_one_terminal (rb : JValue → JValue → ResearchBehavior)
    (v mid c : JValue)
    (ht : getItem v "type" = .ok (.str "message"))
    (hm : getItem v "message_id" = .ok mid)
    (hc : getItem v "content" = .ok c) :
    ∃ pre content, processLine rb (.json v) = .ok (pre ++ [.response content mid true], false) ∧
      (∀ e ∈ pre, isTerminal e = false) ∧
      (pre ++ [.response content mid true]).countP isTerminal = 1 := by
  have hacts : ∀ (acts : List (String × String)),
      ∀ e ∈ acts.map fun a => Event.activity a.1 a.2 mid, isTerminal e = false := by
    intro acts e he
    rw [List.mem_map] at he
    obtain ⟨a, _, rfl⟩ := he
    rfl
  cases hrb : rb c mid with
  | mk acts outcome =>
    cases outcome with
    | ok result =>
      refine ⟨acts.map fun a => Event.activity a.1 a.2 mid, result, ?_, hacts acts, ?_⟩
      · simp [processLine, ht, hm, hc, bind, Except.bind, isStrEq, hrb]
      · rw [List.countP_append, List.countP_eq_zero.mpr ?_]
        · rfl
        · intro e he
          simp only [Bool.not_eq_true]
          exact hacts acts e he
    | error e =>
      refine ⟨(acts.map fun a => Event.activity a.1 a.2 mid) ++ [.error e mid],
        .str ("Something went wrong: " ++ e), ?_, ?_, ?_⟩
      · simp [processLine, ht, hm, hc, bind, Except.bind, isStrEq, hrb]
      · intro ev hev
        rw [List.mem_append] at hev
        rcases hev with h | h
        · exact hacts acts ev h
        · rw [List.mem_singleton] at h
          subst h
          rfl
      · rw [List.countP_append, List.countP_eq_zero.mpr ?_]
        · rfl
        · intro ev hev
          simp only [Bool.not_eq_true]
          rw [List.mem_append] at hev
          rcases hev with h | h
          · exact hacts acts ev h
          · rw [List.mem_singleton] at h
            subst h
            rfl

/-- Witness for C1 at a concrete well-formed message under both a normally
returning and a raising research behaviour. -/
theorem c1_exactly_one_terminal_witness :
    (∃ pre content, processLine rbEx (.json (.obj [("type", .str "message"),
        ("message_id", .str "42"), ("content", .str "ask")]))
      = .ok (pre ++ [.response content (.str "42") true], false) ∧
      (∀ e ∈ pre, isTerminal e = false) ∧
      (pre ++ [.response content (.str "42") true]).countP isTerminal = 1) ∧
    (∃ pre content, processLine rbErr (.json (.obj [("type", .str "message"),
        ("message_id", .str "42"), ("content", .str "ask")]))
      = .ok (pre ++ [.response content (.str "42") true], false) ∧
      (∀ e ∈ pre, isTerminal e = false) ∧
      (pre ++ [.response content (.str "42") true]).countP isTerminal = 1) :=
  ⟨c1_exactly_one_terminal rbEx _ (.str "42") (.str "ask") rfl rfl rfl,
   c1_exactly_one_terminal rbErr _ (.str "42") (.str "ask") rfl rfl rfl⟩

/-- The model-invocation count of the modelled loop never exceeds its
fuel. -/
theorem runLoopGo_invocations_le (turns : Nat → ModelTurn)
    (exec : ToolRequest → String) (mid : JValue) :
    ∀ (fuel k : Nat) (conv : List ConvTurn) (last : String),
      (runLoopGo turns exec mid fuel k conv last).2.2 ≤ fuel := by
  intro fuel
  induction fuel with
  | zero => intro k conv last; simp [runLoopGo]
  | succ n ih =>
    intro k conv last
    simp only [runLoopGo]
    split
    · simp
    · simpa using ih (k + 1) _ (turns k).text

/-- When every model turn requests tools, the modelled loop runs its whole
fuel and answers with the text of the turn of its final round. -/
theorem runLoopGo_all_tools (turns : Nat → ModelTurn)
    (exec : ToolRequest → String) (mid : JValue)
    (h : ∀ j, (turns j).toolCalls.isEmpty = false) :
    ∀ (fuel k : Nat) (conv : List ConvTurn) (last : String),
      (runLoopGo turns exec mid (fuel + 1) k conv last).2.2 = fuel + 1 ∧
      (runLoopGo turns exec mid (fuel + 1) k conv last).2.1 = (turns (k + fuel)).text := by
  intro fuel
  induction fuel with
  | zero =>
    intro k conv last
    simp [runLoopGo, h k]
  | succ n ih =>
    intro k conv last
    rw [runLoopGo, h k]
    simp only [Bool.false_eq_true, if_false]
    refine ⟨congrArg (· + 1) (ih (k + 1) _ (turns k).text).1, ?_⟩
    rw [show (k + (n + 1)) = (k + 1) + n from by omega]
    exact (ih (k + 1) _ (turns k).text).2

/-- C2: for every behaviour of the model and of the tool executor, the
modelled research loop performs at most 8 model-invocation rounds; and when
the model requests tools on every turn — so the cap is reached while tools
are still requested — the loop still terminates normally after exactly 8
invocations, answering with whatever text the 8th (last) model turn
contains. -/
theorem c2_iteration_cap (turns : Nat → ModelTurn) (exec : ToolRequest → String)
    (mid : JValue) (query : String) :
    (researchLoop turns exec mid query).2.2 ≤ 8 ∧
    ((∀ j, (turns j).toolCalls.isEmpty = false) →
      (researchLoop turns exec mid query).2.2 = 8 ∧
      (researchLoop turns exec mid query).2.1 = (turns 7).text) := by
  constructor
  · exact runLoopGo_invocations_le turns exec mid 8 0 _ ""
  · intro h
    have h2 := runLoopGo_all_tools turns exec mid h 7 0
      [ConvTurn.system "system directive", ConvTurn.user query] ""
    exact ⟨h2.1, h2.2⟩

/-- Witness for C2: a model that requests a tool on every round is stopped
after exactly 8 invocations and the answer is the text of the 8th turn. -/
theorem c2_iteration_cap_witness :
    (researchLoop allToolTurns execEx (.str "m") "q").2.2 = 8 ∧
    (researchLoop allToolTurns execEx (.str "m") "q").2.1 = (allToolTurns 7).text :=
  (c2_iteration_cap allToolTurns execEx (.str "m") "q").2 (fun _ => rfl)

/-- The activity events computed by the modelled loop are exactly the
declarative per-round trace prescribed by the spec, independently of the
tool executor and of the ConversationState threaded through the rounds. -/
theorem runLoopGo_events_spec (turns : Nat → ModelTurn)
    (exec : ToolRequest → String) (mid : JValue) :
    ∀ (fuel k : Nat) (conv : List ConvTurn) (last : String),
      (runLoopGo turns exec mid fuel k conv last).1 = specTrace turns mid fuel k := by
  intro fuel
  induction fuel with
  | zero => intro k conv last; rfl
  | succ n ih =>
    intro k conv last
    rw [runLoopGo, specTrace]
    by_cases hk : (turns k).toolCalls.isEmpty
    · simp [hk]
    · simp only [Bool.not_eq_true] at hk
      simp only [hk, Bool.false_eq_true, if_false]
      rw [ih (k + 1) _ (turns k).text]

/-- C7: the full event trace of a query under the modelled loop is the
initial thinking notification, then — for each tool round, in order — the
tool activity notifications of the round followed by one "analyzing results"
notification emitted before the events of the next model invocation, and finally
the single terminal response; instantiated at a query whose first model
turn requests two searches, this yields exactly the order
thinking, tool activity A, tool activity B, analyzing, response(done). -/
theorem c7_analyzing_after_tool_rounds (turns : Nat → ModelTurn)
    (exec : ToolRequest → String) (mid : JValue) (query : String) :
    (runQuery turns exec mid query
      = thinkingEvent mid :: specTrace turns mid 8 0
        ++ [.response (.str (researchLoop turns exec mid query).2.1) mid true]) ∧
    runQuery twoSearchTurns execEx (.str "m1") "q"
      = [thinkingEvent (.str "m1"),
         .activity "web_search" "web_search(query A)" (.str "m1"),
         .activity "web_search" "web_search(query B)" (.str "m1"),
         analyzingEvent (.str "m1"),
         .response (.str "final answer") (.str "m1") true] := by
  constructor
  · show (researchLoop turns exec mid query).1 ++ _ = _
    have h : (researchLoop turns exec mid query).1
        = thinkingEvent mid :: specTrace turns mid 8 0 := by
      show thinkingEvent mid :: (runLoopGo turns exec mid 8 0 _ "").1 = _
      rw [runLoopGo_events_spec]
    rw [h]
  · rfl

/-- Counterexample to C3 as stated: a history whose last (only) assistant
turn has two text blocks, `"A"` and `"B"`.  The newline-join extraction of
the claim yields `"A\nB"`, but `research` returns only the text `"A"` of
the first block. -/
theorem c3_counterexample :
    specExtractJoined [exMsgC3].reverse = some "A\nB" ∧
    (research (.str "1") [some [exMsgC3]]).2 = .str "A" ∧
    (JValue.str "A" ≠ JValue.str "A\nB") := by
  refine ⟨rfl, rfl, ?_⟩
  intro h
  rw [JValue.str.injEq] at h
  exact absurd h (by decide)

/-- The `final_response` scan agrees with the first-text-block reading:
starting from a falsy accumulator, if the most-recent-first scan has a turn
that yields a value (string content with non-blank text, or a block list
whose first text block holds a truthy value), the scan returns the first
such value. -/
theorem scanMsgs_lastYield (l : List Msg) : ∀ (acc : JValue),
    jTruthy acc = false → ∀ v, lastYield l = some v → scanMsgs acc l = v := by
  induction l with
  | nil => intro acc hacc v hv; exact absurd hv (by simp [lastYield])
  | cons m rest ih =>
    obtain ⟨ty, mc, tcs⟩ := m
    intro acc hacc v hv
    by_cases hty : (ty == some "ai") = true
    · cases mc with
      | str s =>
        by_cases hs : (s.trim != "") = true
        · simp only [lastYield, turnYield, hty, if_true, hs, Option.some.injEq] at hv
          simp only [scanMsgs, hty, if_true, hs]
          exact hv
        · simp only [lastYield, turnYield, hty, if_true, hs, if_false] at hv
          simp only [scanMsgs, hty, if_true, hs, if_false]
          exact ih acc hacc v hv
      | blocks bs =>
        cases hb : scanBlocks bs with
        | some t =>
          by_cases htr : jTruthy t = true
          · simp only [lastYield, turnYield, hty, if_true, hb, htr, Option.some.injEq] at hv
            simp only [scanMsgs, hty, if_true, hb, Option.getD_some, htr, if_true]
            exact hv
          · simp only [lastYield, turnYield, hty, if_true, hb, htr, if_false] at hv
            simp only [scanMsgs, hty, if_true, hb, Option.getD_some, htr, if_false]
            exact ih t (by simpa using htr) v hv
        | none =>
          simp only [lastYield, turnYield, hty, if_true, hb] at hv
          simp only [scanMsgs, hty, if_true, hb, Option.getD_none, hacc, if_false]
          exact ih acc hacc v hv
      | other =>
        simp only [lastYield, turnYield, hty, if_true] at hv
        simp only [scanMsgs, hty, if_true]
        exact ih acc hacc v hv
    · simp only [lastYield, turnYield, hty, if_false] at hv
      simp only [scanMsgs, hty, if_false]
      exact ih acc hacc v hv

/-- C3 amended: the final answer returned by `research` over an observed
history is the value of the last assistant turn with non-empty text
content, scanned most-recent-first; and when the content of that turn is a
sequence of content blocks, the extracted value is the `text` of the
*first* block typed `"text"` — later text blocks contribute nothing. -/
theorem c3_first_text_block (mid : JValue) (msgs : List Msg) (v : JValue)
    (h : lastYield msgs.reverse = some v) :
    (research mid [some msgs]).2 = v := by
  show scanMsgs (.str "") msgs.reverse = v
  exact scanMsgs_lastYield msgs.reverse (.str "") rfl v h

/-- Witness for C3 (amended) at the two-text-block history: the answer is
the text of the first block. -/
theorem c3_first_text_block_witness :
    (research (.str "9") [some [exMsgC3]]).2 = .str "A" :=
  c3_first_text_block (.str "9") [exMsgC3] (.str "A") rfl

/-- Composition of the dedup invariant across two consecutive passes. -/
theorem seenInv_comp {s0 s1 s2 : List String} {ps1 ps2 : List (String × Event)}
    (h1 : SeenInv s0 s1 ps1) (h2 : SeenInv s1 s2 ps2) :
    SeenInv s0 s2 (ps1 ++ ps2) := by
  obtain ⟨n1, f1, m1⟩ := h1
  obtain ⟨n2, f2, m2⟩ := h2
  refine ⟨?_, ?_, ?_⟩
  · rw [List.map_append]
    exact n1.append n2 (fun a ha1 ha2 => (f2 a ha2) ((m1 a).2 (Or.inr ha1)))
  · intro i hi
    rw [List.map_append, List.mem_append] at hi
    rcases hi with h | h
    · exact f1 i h
    · exact fun hs0 => f2 i h ((m1 i).2 (Or.inl hs0))
  · intro x
    rw [List.map_append, List.mem_append]
    constructor
    · intro hx
      rcases (m2 x).1 hx with h | h
      · rcases (m1 x).1 h with h0 | h0
        · exact Or.inl h0
        · exact Or.inr (Or.inl h0)
      · exact Or.inr (Or.inr h)
    · intro hx
      rcases hx with h | h | h
      · exact (m2 x).2 (Or.inl ((m1 x).2 (Or.inl h)))
      · exact (m2 x).2 (Or.inl ((m1 x).2 (Or.inr h)))
      · exact (m2 x).2 (Or.inr h)

/-- The dedup invariant holds on an empty pass. -/
theorem seenInv_refl (seen : List String) : SeenInv seen seen [] :=
  ⟨List.nodup_nil, by simp, by simp⟩

/-- The tool-call loop satisfies the dedup invariant. -/
theorem procToolCalls_inv (mid : JValue) (tcs : List ToolCall) :
    ∀ seen, SeenInv seen (procToolCalls mid seen tcs).1 (procToolCalls mid seen tcs).2 := by
  induction tcs with
  | nil => intro seen; exact seenInv_refl seen
  | cons tc rest ih =>
    intro seen
    by_cases hc : tcId tc ∈ seen
    · simp only [procToolCalls, hc, if_true]
      exact ih seen
    · simp only [procToolCalls, hc, if_false]
      obtain ⟨n1, f1, m1⟩ := ih (tcId tc :: seen)
      refine ⟨?_, ?_, ?_⟩
      · rw [List.map_cons]
        refine List.nodup_cons.mpr ⟨?_, n1⟩
        intro hmem
        exact f1 (tcId tc) hmem (List.mem_cons_self _ _)
      · intro i hi
        rw [List.map_cons, List.mem_cons] at hi
        rcases hi with h | h
        · subst h; exact hc
        · intro hs
          exact f1 i h (List.mem_cons_of_mem _ hs)
      · intro x
        rw [List.map_cons, List.mem_cons]
        constructor
        · intro hx
          rcases (m1 x).1 hx with h | h
          · rw [List.mem_cons] at h
            rcases h with h | h
            · exact Or.inr (Or.inl h)
            · exact Or.inl h
          · exact Or.inr (Or.inr h)
        · intro hx
          rcases hx with h | h | h
          · exact (m1 x).2 (Or.inl (List.mem_cons_of_mem _ h))
          · subst h; exact (m1 (tcId tc)).2 (Or.inl (List.mem_cons_self _ _))
          · exact (m1 x).2 (Or.inr h)

/-- The per-snapshot message loop satisfies the dedup invariant. -/
theorem procMsgs_inv (mid : JValue) (msgs : List Msg) :
    ∀ seen, SeenInv seen (procMsgs mid seen msgs).1 (procMsgs mid seen msgs).2 := by
  induction msgs with
  | nil => intro seen; exact seenInv_refl seen
  | cons m rest ih =>
    intro seen
    by_cases hm : (m.type == some "ai" && !m.tool_calls.isEmpty) = true
    · simp only [procMsgs, hm, if_true]
      exact seenInv_comp (procToolCalls_inv mid m.tool_calls seen)
        (ih (procToolCalls mid seen m.tool_calls).1)
    · simp only [procMsgs, hm, if_false]
      exact ih seen

/-- One streamed snapshot satisfies the dedup invariant (the
`final_response` component of the state does not affect it). -/
theorem procEvent_inv (mid : JValue) (st : List String × JValue)
    (ev : Option (List Msg)) :
    SeenInv st.1 (procEvent mid st ev).1.1 (procEvent mid st ev).2 := by
  cases ev with
  | none => exact seenInv_refl st.1
  | some msgs => exact procMsgs_inv mid msgs st.1

/-- The whole streamed run satisfies the dedup invariant. -/
theorem researchEvents_inv (mid : JValue) (stream : List (Option (List Msg))) :
    ∀ st : List String × JValue,
      SeenInv st.1 (researchEvents mid st stream).1.1 (researchEvents mid st stream).2 := by
  induction stream with
  | nil => intro st; exact seenInv_refl st.1
  | cons ev rest ih =>
    intro st
    simp only [researchEvents]
    exact seenInv_comp (procEvent_inv mid st ev) (ih (procEvent mid st ev).1)

/-- C4: within a single `research` run, the dedup identifiers of the
emitted activity events are pairwise distinct — re-observing a tool call in
a later accumulating snapshot emits no additional activity event — and the
identifier falls back to the capability name (or the empty string) when the
call carries no id. -/
theorem c4_activity_dedup (mid : JValue) (stream : List (Option (List Msg))) :
    ((research mid stream).1.map Prod.fst).Nodup ∧
    (∀ nm args, tcId ⟨none, nm, args⟩ = nm.getD "") ∧
    (∀ nm args, tcId ⟨some "", nm, args⟩ = nm.getD "") := by
  refine ⟨?_, fun nm args => rfl, fun nm args => rfl⟩
  exact (researchEvents_inv mid stream ([], .str "")).1
